import Mathlib

/-! # Verification of the SSL shoot environment

Shallow embedding of rsoccer_gym/ssl/my_envs/ssl_shoot.py (class
SSLShootEnv). Python floats are idealized as real numbers; the numpy
and math routines used by the source (linalg.norm, clip, cos, sin,
atan2, deg2rad, radians) are modelled by their mathematical
counterparts. Randomness (random.uniform, action_space.sample) is
modelled by explicit streams of sampled values passed as arguments, so
every function is a deterministic function of its inputs and the
sampled values. The environment always has 3 blue and 3 yellow robots
(n_robots_blue = n_robots_yellow = 3). -/

namespace SSLShoot

/-- A point of the field plane. -/
abbrev Point := ℝ × ℝ

/-- Euclidean norm of the difference of two points, as computed by
np.linalg.norm of a coordinate difference in the source. -/
noncomputable def distPts (p q : Point) : ℝ :=
  Real.sqrt ((p.1 - q.1) ^ 2 + (p.2 - q.2) ^ 2)

/-- The distance function is symmetric in its two arguments. -/
lemma distPts_comm (p q : Point) : distPts p q = distPts q p := by
  unfold distPts
  ring_nf

/-- np.clip with scalar bounds: clamp from below by lo, then from above
by hi. -/
noncomputable def clip (x lo hi : ℝ) : ℝ := min (max x lo) hi

/-- Static field geometry (self.field), configuration owned by the base
environment. -/
structure Field where
  length : ℝ
  width : ℝ
  penalty_length : ℝ
  penalty_width : ℝ
  goal_width : ℝ

/-- The field invariants stated by the specification: all dimensions
positive, goal narrower than the field, penalty area narrower than the
field. -/
def Field.Valid (fld : Field) : Prop :=
  0 < fld.length ∧ 0 < fld.width ∧ 0 < fld.penalty_length ∧
    0 < fld.penalty_width ∧ 0 < fld.goal_width ∧
    fld.goal_width < fld.width ∧ fld.penalty_width < fld.width

/-- Kinematic state of one robot inside a Frame (positions, heading in
degrees, velocities, per-wheel commanded speeds). -/
structure Robot where
  x : ℝ
  y : ℝ
  theta : ℝ
  v_x : ℝ
  v_y : ℝ
  v_theta : ℝ
  v_wheel0 : ℝ
  v_wheel1 : ℝ
  v_wheel2 : ℝ
  v_wheel3 : ℝ

/-- Helper building a robot at a position and heading with all
velocities zero. -/
def mkBot (x y theta : ℝ) : Robot :=
  ⟨x, y, theta, 0, 0, 0, 0, 0, 0, 0⟩

/-- State of the ball inside a Frame. -/
structure Ball where
  x : ℝ
  y : ℝ
  v_x : ℝ
  v_y : ℝ

/-- Helper building a ball at a position with zero velocity. -/
def mkBall (x y : ℝ) : Ball := ⟨x, y, 0, 0⟩

/-- One timestep snapshot of the ball and both rosters. -/
structure Frame where
  ball : Ball
  robots_blue : Fin 3 → Robot
  robots_yellow : Fin 3 → Robot

/-- A low-level robot command as produced by _get_commands
(rsoccer Robot command record). -/
structure Cmd where
  yellow : Bool
  id : ℕ
  v_x : ℝ
  v_y : ℝ
  v_theta : ℝ
  kick_v_x : ℝ
  dribbler : Bool

instance : Inhabited Cmd := ⟨⟨false, 0, 0, 0, 0, 0, false⟩⟩

/-- Maximum linear speed (self.max_v). -/
noncomputable def max_v : ℝ := 2.5

/-- Maximum angular speed (self.max_w). -/
noncomputable def max_w : ℝ := 10

/-- Kick speed constant (self.kick_speed_x). -/
noncomputable def kick_speed_x : ℝ := 5.0

/-- Energy normalization constant (self.energy_scale):
wheel_max_rad_s * 4 wheels * max_steps. -/
noncomputable def energy_scale : ℝ := (160 * 4) * 1000

/-- Degrees to radians, as np.deg2rad and math.radians. -/
noncomputable def deg2rad (d : ℝ) : ℝ := d * (Real.pi / 180)

/-! ## Action decoder (convert_actions)

The source denormalizes the first two action components by max_v,
rotates the resulting global-frame velocity into the robot local frame
using the heading angle (in radians), and then clamps the magnitude:

  v_norm = np.linalg.norm([v_x, v_y])
  c = v_norm < self.max_v or self.max_v / v_norm
  v_x, v_y = v_x * c, v_y * c

The Python expression for c evaluates to the boolean True (numerically
1) when v_norm < max_v, and to the float max_v / v_norm otherwise; the
multiplication by True is multiplication by 1. -/

/-- The denormalized velocity rotated into the robot local frame
(the value of the pair (v_x, v_y) right before the clamping step). -/
noncomputable def rotated_vel (action : Fin 4 → ℝ) (angle : ℝ) : Point :=
  (action 0 * max_v * Real.cos angle + action 1 * max_v * Real.sin angle,
   -(action 0 * max_v) * Real.sin angle + action 1 * max_v * Real.cos angle)

/-- The scale factor c of the clamping step: 1 when the norm is below
max_v (the Python boolean True), max_v divided by the norm otherwise. -/
noncomputable def clamp_factor (v : Point) : ℝ :=
  if Real.sqrt (v.1 ^ 2 + v.2 ^ 2) < max_v then 1
  else max_v / Real.sqrt (v.1 ^ 2 + v.2 ^ 2)

/-- convert_actions: denormalize, rotate to local frame, clamp the
linear velocity, and denormalize the angular component by max_w. -/
noncomputable def convert_actions (action : Fin 4 → ℝ) (angle : ℝ) : ℝ × ℝ × ℝ :=
  ((rotated_vel action angle).1 * clamp_factor (rotated_vel action angle),
   (rotated_vel action angle).2 * clamp_factor (rotated_vel action angle),
   action 2 * max_w)

/-- Scaling both coordinates by a nonnegative factor scales the norm by
that factor. -/
lemma sqrt_scale (k a b : ℝ) (hk : 0 ≤ k) :
    Real.sqrt ((a * k) ^ 2 + (b * k) ^ 2) = k * Real.sqrt (a ^ 2 + b ^ 2) := by
  have h : (a * k) ^ 2 + (b * k) ^ 2 = k ^ 2 * (a ^ 2 + b ^ 2) := by ring
  rw [h, Real.sqrt_mul (sq_nonneg k), Real.sqrt_sq hk]

/-- C7: for every action with all four components in [-1, 1] and every
heading, the local (x, y) velocity pair returned by convert_actions has
Euclidean magnitude at most max_v = 2.5, and it is a positive uniform
scaling of the whole rotated denormalized vector, so the direction of
the commanded velocity is preserved (no per-axis clamping). -/
theorem convert_actions_speed_clamp (action : Fin 4 → ℝ) (angle : ℝ)
    (h : ∀ i, |action i| ≤ 1) :
    Real.sqrt ((convert_actions action angle).1 ^ 2 +
        (convert_actions action angle).2.1 ^ 2) ≤ max_v ∧
    ∃ c : ℝ, 0 < c ∧
      (convert_actions action angle).1 = c * (rotated_vel action angle).1 ∧
      (convert_actions action angle).2.1 = c * (rotated_vel action angle).2 := by
  have hmv : (0 : ℝ) < max_v := by norm_num [max_v]
  constructor
  · by_cases hn : Real.sqrt ((rotated_vel action angle).1 ^ 2 +
        (rotated_vel action angle).2 ^ 2) < max_v
    · simp only [convert_actions, clamp_factor, if_pos hn, mul_one]
      exact hn.le
    · have hge : max_v ≤ Real.sqrt ((rotated_vel action angle).1 ^ 2 +
          (rotated_vel action angle).2 ^ 2) := not_lt.mp hn
      have hpos : 0 < Real.sqrt ((rotated_vel action angle).1 ^ 2 +
          (rotated_vel action angle).2 ^ 2) := lt_of_lt_of_le hmv hge
      simp only [convert_actions, clamp_factor, if_neg hn]
      rw [sqrt_scale _ _ _ (le_of_lt (div_pos hmv hpos))]
      rw [div_mul_cancel₀ _ (ne_of_gt hpos)]
  · refine ⟨clamp_factor (rotated_vel action angle), ?_, ?_, ?_⟩
    · unfold clamp_factor
      by_cases hn : Real.sqrt ((rotated_vel action angle).1 ^ 2 +
          (rotated_vel action angle).2 ^ 2) < max_v
      · rw [if_pos hn]; norm_num
      · have hpos : 0 < Real.sqrt ((rotated_vel action angle).1 ^ 2 +
            (rotated_vel action angle).2 ^ 2) :=
          lt_of_lt_of_le hmv (not_lt.mp hn)
        rw [if_neg hn]; exact div_pos hmv hpos
    · simp only [convert_actions]; ring
    · simp only [convert_actions]; ring

/-- A concrete in-range action with both linear components at full
scale. -/
noncomputable def c7act : Fin 4 → ℝ := fun i => if i.val ≤ 1 then 1 else 0

/-- Witness for C7: the speed bound evaluated at the concrete action
(1, 1, 0, 0) and heading 0. -/
theorem convert_actions_speed_clamp_witness :
    Real.sqrt ((convert_actions c7act 0).1 ^ 2 +
        (convert_actions c7act 0).2.1 ^ 2) ≤ max_v :=
  (convert_actions_speed_clamp c7act 0 (by
    intro i
    fin_cases i <;> norm_num [c7act])).1

/-- C8: when the denormalized rotated velocity vector has zero norm,
the clamp guard takes the no-scaling branch (the factor is 1, and no
division is performed), the vector is returned unchanged, and it is in
fact the zero vector, so the clamping step never divides by zero. -/
theorem convert_actions_zero_guard (action : Fin 4 → ℝ) (angle : ℝ)
    (h : Real.sqrt ((rotated_vel action angle).1 ^ 2 +
        (rotated_vel action angle).2 ^ 2) = 0) :
    clamp_factor (rotated_vel action angle) = 1 ∧
    convert_actions action angle =
      ((rotated_vel action angle).1, (rotated_vel action angle).2,
        action 2 * max_w) ∧
    (rotated_vel action angle).1 = 0 ∧ (rotated_vel action angle).2 = 0 := by
  have hc : clamp_factor (rotated_vel action angle) = 1 := by
    unfold clamp_factor
    rw [if_pos]
    rw [h]
    norm_num [max_v]
  have hsum : (rotated_vel action angle).1 ^ 2 +
      (rotated_vel action angle).2 ^ 2 = 0 := by
    have hnn : (0 : ℝ) ≤ (rotated_vel action angle).1 ^ 2 +
        (rotated_vel action angle).2 ^ 2 := by positivity
    exact (Real.sqrt_eq_zero hnn).mp h
  have h12 : (rotated_vel action angle).1 ^ 2 = 0 ∧
      (rotated_vel action angle).2 ^ 2 = 0 :=
    (add_eq_zero_iff_of_nonneg (sq_nonneg _) (sq_nonneg _)).mp hsum
  refine ⟨hc, ?_, sq_eq_zero_iff.mp h12.1, sq_eq_zero_iff.mp h12.2⟩
  unfold convert_actions
  rw [hc, mul_one, mul_one]

/-- A concrete all-zero action. -/
noncomputable def c8act : Fin 4 → ℝ := fun _ => 0

/-- Witness for C8: at the all-zero action the rotated vector is zero
and the clamp factor is 1. -/
theorem convert_actions_zero_guard_witness :
    clamp_factor (rotated_vel c8act 0) = 1 :=
  (convert_actions_zero_guard c8act 0 (by
    have h1 : rotated_vel c8act 0 = (0, 0) := by
      simp [rotated_vel, c8act]
    rw [h1]
    norm_num [Real.sqrt_zero])).1

/-! ## Command routing (_get_commands)

Per tick the source builds one command per robot: blue robots with
index different from active_robot_idx and all yellow robots get a
freshly sampled random action; the active blue robot gets the policy
action. The per-robot random draws are modelled by streams indexed by
roster position: blueSample i is the action_space.sample() drawn for
blue robot i, blueDraw i the random.uniform(-1, 1) draw used in the
kick test for blue robot i, yellowSample i the sample for yellow robot
i. In the source the command built for the active robot carries id=0
literally, and the kick test of every blue robot (active or not)
compares the uniform draw against actions[3], the policy kick
component; yellow robots instead kick when their own sampled fourth
component is positive. -/

/-- The command built for blue robot i: when i differs from the active
index, the robot gets its own sampled action decoded with its own
heading and carries its own id; the active robot gets the policy action
decoded with its heading but carries the literal id 0. In both branches
the kick fires when the uniform draw for robot i is below the policy
kick component actions[3], and the dribbler is engaged. -/
noncomputable def blue_cmd (actions : Fin 4 → ℝ) (active : Fin 3) (f : Frame)
    (blueSample : Fin 3 → Fin 4 → ℝ) (blueDraw : Fin 3 → ℝ) (i : Fin 3) : Cmd :=
  if i ≠ active then
    { yellow := false
      id := i.val
      v_x := (convert_actions (blueSample i) (deg2rad (f.robots_blue i).theta)).1
      v_y := (convert_actions (blueSample i) (deg2rad (f.robots_blue i).theta)).2.1
      v_theta := (convert_actions (blueSample i) (deg2rad (f.robots_blue i).theta)).2.2
      kick_v_x := if blueDraw i < actions 3 then kick_speed_x else 0
      dribbler := true }
  else
    { yellow := false
      id := 0
      v_x := (convert_actions actions (deg2rad (f.robots_blue active).theta)).1
      v_y := (convert_actions actions (deg2rad (f.robots_blue active).theta)).2.1
      v_theta := (convert_actions actions (deg2rad (f.robots_blue active).theta)).2.2
      kick_v_x := if blueDraw i < actions 3 then kick_speed_x else 0
      dribbler := true }

/-- The command built for yellow robot i: its own sampled action
decoded with its own heading, kick fired when its own sampled fourth
component is positive, dribbler engaged. -/
noncomputable def yellow_cmd (f : Frame) (yellowSample : Fin 3 → Fin 4 → ℝ)
    (i : Fin 3) : Cmd :=
  { yellow := true
    id := i.val
    v_x := (convert_actions (yellowSample i) (deg2rad (f.robots_yellow i).theta)).1
    v_y := (convert_actions (yellowSample i) (deg2rad (f.robots_yellow i).theta)).2.1
    v_theta := (convert_actions (yellowSample i) (deg2rad (f.robots_yellow i).theta)).2.2
    kick_v_x := if yellowSample i 3 > 0 then kick_speed_x else 0
    dribbler := true }

noncomputable def get_commands (actions : Fin 4 → ℝ) (active : Fin 3) (f : Frame)
    (blueSample : Fin 3 → Fin 4 → ℝ) (blueDraw : Fin 3 → ℝ)
    (yellowSample : Fin 3 → Fin 4 → ℝ) : List Cmd :=
  (List.ofFn fun i : Fin 3 => blue_cmd actions active f blueSample blueDraw i) ++
  (List.ofFn fun i : Fin 3 => yellow_cmd f yellowSample i)

/-- The command list written out element by element. -/
lemma get_commands_expand (actions : Fin 4 → ℝ) (active : Fin 3) (f : Frame)
    (bs : Fin 3 → Fin 4 → ℝ) (bd : Fin 3 → ℝ) (ys : Fin 3 → Fin 4 → ℝ) :
    get_commands actions active f bs bd ys =
      [blue_cmd actions active f bs bd 0, blue_cmd actions active f bs bd 1,
       blue_cmd actions active f bs bd 2, yellow_cmd f ys 0, yellow_cmd f ys 1,
       yellow_cmd f ys 2] := by
  simp [get_commands, List.ofFn_succ, Fin.succ_zero_eq_one, Fin.succ_one_eq_two]

/-! ## Possession heuristic (_frame_to_observations, __is_toward_ball)

The possession bookkeeping of _frame_to_observations: find the nearest
blue and nearest yellow robot to the ball, reset the possession index
to the sentinel -1, and, only when a command set exists, test the
nearer side with the distance threshold 0.15, the dribbler flag on the
most recent command, and the facing test. In the yellow branch the
source passes nearest_blue_robot, not nearest_yellow_robot, as the
robot index of the facing test. -/

/-- Two-argument arctangent with the standard quadrant correction,
modelling math.atan2 (signed zero distinctions of floats collapse onto
the single real zero). -/
noncomputable def atan2 (y x : ℝ) : ℝ :=
  if 0 < x then Real.arctan (y / x)
  else if x < 0 ∧ 0 ≤ y then Real.arctan (y / x) + Real.pi
  else if x < 0 ∧ y < 0 then Real.arctan (y / x) - Real.pi
  else if x = 0 ∧ 0 < y then Real.pi / 2
  else if x = 0 ∧ y < 0 then -(Real.pi / 2)
  else 0

/-- The first folding loop of the source: while angle < -pi, add 2*pi. -/
noncomputable def fold_up (a : ℝ) : ℝ :=
  if h : a < -Real.pi then fold_up (a + 2 * Real.pi) else a
termination_by (⌈(-Real.pi - a) / (2 * Real.pi)⌉).toNat
decreasing_by
  have hpi : (0 : ℝ) < Real.pi := Real.pi_pos
  have h2pi : (0 : ℝ) < 2 * Real.pi := by linarith
  have hrw : (-Real.pi - (a + 2 * Real.pi)) / (2 * Real.pi) =
      (-Real.pi - a) / (2 * Real.pi) - 1 := by
    field_simp
    ring
  have hceil : ⌈(-Real.pi - (a + 2 * Real.pi)) / (2 * Real.pi)⌉ =
      ⌈(-Real.pi - a) / (2 * Real.pi)⌉ - 1 := by
    rw [hrw, Int.ceil_sub_one]
  have hppos : (0 : ℝ) < (-Real.pi - a) / (2 * Real.pi) := by
    apply div_pos _ h2pi
    linarith
  have hcpos : 0 < ⌈(-Real.pi - a) / (2 * Real.pi)⌉ := Int.ceil_pos.mpr hppos
  rw [hceil]
  omega

/-- The second folding loop of the source: while angle > pi, subtract
2*pi. -/
noncomputable def fold_down (a : ℝ) : ℝ :=
  if h : Real.pi < a then fold_down (a - 2 * Real.pi) else a
termination_by (⌈(a - Real.pi) / (2 * Real.pi)⌉).toNat
decreasing_by
  have hpi : (0 : ℝ) < Real.pi := Real.pi_pos
  have h2pi : (0 : ℝ) < 2 * Real.pi := by linarith
  have hrw : (a - 2 * Real.pi - Real.pi) / (2 * Real.pi) =
      (a - Real.pi) / (2 * Real.pi) - 1 := by
    field_simp
    ring
  have hceil : ⌈(a - 2 * Real.pi - Real.pi) / (2 * Real.pi)⌉ =
      ⌈(a - Real.pi) / (2 * Real.pi)⌉ - 1 := by
    rw [hrw, Int.ceil_sub_one]
  have hppos : (0 : ℝ) < (a - Real.pi) / (2 * Real.pi) := by
    apply div_pos _ h2pi
    linarith
  have hcpos : 0 < ⌈(a - Real.pi) / (2 * Real.pi)⌉ := Int.ceil_pos.mpr hppos
  rw [hceil]
  omega

/-- The two teams; the source passes the strings "blue" and "yellow". -/
inductive Team where
  | blue : Team
  | yellow : Team

/-- The robot of the given team at the given roster index. -/
def team_robot (f : Frame) (team : Team) (idx : Fin 3) : Robot :=
  match team with
  | Team.blue => f.robots_blue idx
  | Team.yellow => f.robots_yellow idx

/-- The facing test __is_toward_ball: bearing from the robot to the
ball, minus the robot heading in radians, folded into [-pi, pi]; the
normalized alignment score (pi - |angle| - 0) / (pi - 0) must be at
least 0.9. -/
noncomputable def is_toward_ball (f : Frame) (team : Team) (idx : Fin 3) : Prop :=
  0.9 ≤ (Real.pi -
      |fold_down (fold_up
        (atan2 (f.ball.y - (team_robot f team idx).y)
          (f.ball.x - (team_robot f team idx).x) -
          deg2rad (team_robot f team idx).theta))| - 0) / (Real.pi - 0)

noncomputable instance (f : Frame) (team : Team) (idx : Fin 3) :
    Decidable (is_toward_ball f team idx) := by
  unfold is_toward_ball
  exact inferInstance

/-- Modelled from the spec: get_nearest_robot_idx lives in the base
environment SSLBaseEnv, whose sources are not part of this repository;
per the spec it finds the robot of a side nearest to a target point by
Euclidean distance in the field plane, returning the roster index and
the distance. Ties take the lowest index. -/
noncomputable def get_nearest_robot_idx (f : Frame) (target : Point)
    (team : Team) : Fin 3 × ℝ :=
  if distPts target ((team_robot f team 0).x, (team_robot f team 0).y) ≤
        distPts target ((team_robot f team 1).x, (team_robot f team 1).y) ∧
      distPts target ((team_robot f team 0).x, (team_robot f team 0).y) ≤
        distPts target ((team_robot f team 2).x, (team_robot f team 2).y) then
    (0, distPts target ((team_robot f team 0).x, (team_robot f team 0).y))
  else if distPts target ((team_robot f team 1).x, (team_robot f team 1).y) ≤
      distPts target ((team_robot f team 2).x, (team_robot f team 2).y) then
    (1, distPts target ((team_robot f team 1).x, (team_robot f team 1).y))
  else (2, distPts target ((team_robot f team 2).x, (team_robot f team 2).y))

/-- The nearest blue robot to the ball and its distance. -/
noncomputable def nearest_blue (f : Frame) : Fin 3 × ℝ :=
  get_nearest_robot_idx f (f.ball.x, f.ball.y) Team.blue

/-- The nearest yellow robot to the ball and its distance. -/
noncomputable def nearest_yellow (f : Frame) : Fin 3 × ℝ :=
  get_nearest_robot_idx f (f.ball.x, f.ball.y) Team.yellow

/-- The possession index update of _frame_to_observations: -1 sentinel
unless a command set exists and the nearer side passes distance,
dribbler and facing tests. The yellow branch indexes the dribbler flag
with n_robots_blue + nearest_yellow but the facing test with the
nearest blue index, exactly as the source does. -/
noncomputable def possession_update (f : Frame) (cmds : Option (List Cmd)) : ℤ :=
  match cmds with
  | none => -1
  | some cs =>
    if (nearest_blue f).2 ≤ (nearest_yellow f).2 then
      if (nearest_blue f).2 ≤ 0.15 ∧
          (cs.getD (nearest_blue f).1.val default).dribbler = true ∧
          is_toward_ball f Team.blue (nearest_blue f).1 then
        ((nearest_blue f).1.val : ℤ)
      else -1
    else
      if (nearest_yellow f).2 ≤ 0.15 ∧
          (cs.getD (3 + (nearest_yellow f).1.val) default).dribbler = true ∧
          is_toward_ball f Team.yellow (nearest_blue f).1 then
        3 + ((nearest_yellow f).1.val : ℤ)
      else -1

/-! ## Reward and termination engine (_calculate_reward_and_done) -/

/-- The reward_shaping_total mapping: termination counters and shaped
reward term accumulators. -/
structure Totals where
  goal : ℤ
  done_left_out : ℤ
  done_ball_out : ℤ
  done_robot_out : ℤ
  done_robot_in_gk_area : ℤ
  rw_ball_grad : ℝ
  rw_robot_grad : ℝ
  rw_robot_orientation : ℝ
  rw_energy : ℝ

/-- The all-zero mapping assigned at the top of
_calculate_reward_and_done. -/
noncomputable def zeroTotals : Totals := ⟨0, 0, 0, 0, 0, 0, 0, 0, 0⟩

/-- Result of one reward computation: the scalar reward, the done flag,
and the rebuilt reward_shaping_total mapping. -/
structure RewardResult where
  reward : ℝ
  done : Bool
  totals : Totals

/-- The energy penalty __energy_pen: sum of the absolute wheel speeds
of blue robot 0. -/
noncomputable def energy_pen (f : Frame) : ℝ :=
  |(f.robots_blue 0).v_wheel0| + |(f.robots_blue 0).v_wheel1| +
    |(f.robots_blue 0).v_wheel2| + |(f.robots_blue 0).v_wheel3|

/-- The ball progress gradient __ball_grad_rw: previous minus current
distance of the ball to the attacking goal center (length/2, 0),
multiplied by 1/0.1, clipped to [-1, 1]. -/
noncomputable def ball_grad_rw (lastF f : Frame) (fld : Field) : ℝ :=
  clip ((distPts (fld.length / 2, 0) (lastF.ball.x, lastF.ball.y) -
      distPts (fld.length / 2, 0) (f.ball.x, f.ball.y)) * (1 / 0.1)) (-1) 1

/-- The robot progress gradient __robot_grad_rw: previous minus current
minimum distance of the active blue robot to the three goal reference
points (upper post, lower post, center), multiplied by 1/0.1, clipped
to [-1, 1]. -/
noncomputable def robot_grad_rw (lastF f : Frame) (active : Fin 3) (fld : Field) : ℝ :=
  let up : Point := (fld.length / 2, fld.goal_width / 2)
  let down : Point := (fld.length / 2, -(fld.goal_width / 2))
  let mid : Point := (fld.length / 2, 0)
  let lp : Point := ((lastF.robots_blue active).x, (lastF.robots_blue active).y)
  let cp : Point := ((f.robots_blue active).x, (f.robots_blue active).y)
  clip ((min (min (distPts up lp) (distPts down lp)) (distPts mid lp) -
      min (min (distPts up cp) (distPts down cp)) (distPts mid cp)) * (1 / 0.1))
    (-1) 1

/-- The first statement block of _calculate_reward_and_done: the
done-limit test. It is a plain if (not part of the elif chain that
follows), so it only initializes reward, done and the mapping. -/
noncomputable def rule_left_out (f : Frame) (dl : ℝ) : ℝ × Bool × Totals :=
  if (f.robots_blue 0).x < dl ∨ f.ball.x < dl then
    (-10, true, { zeroTotals with done_left_out := zeroTotals.done_left_out + 1 })
  else (0, false, zeroTotals)

/-- The if/elif chain of _calculate_reward_and_done that follows the
done-limit block, starting from the reward, done flag and mapping that
block produced. The final elif recomputes the reward from the shaped
terms whenever a previous frame exists and no earlier branch of this
chain matched. -/
noncomputable def rule_chain (f : Frame) (lastF : Option Frame) (active : Fin 3)
    (fld : Field) (reward1 : ℝ) (done1 : Bool) (t1 : Totals) : RewardResult :=
  if |(f.robots_blue 0).y| > fld.width / 2 ∨ |(f.robots_blue 0).x| > fld.length / 2 then
    ⟨reward1, true, { t1 with done_robot_out := t1.done_robot_out + 1 }⟩
  else if |f.ball.y| > fld.width / 2 then
    ⟨reward1, true, { t1 with done_ball_out := t1.done_ball_out + 1 }⟩
  else if f.ball.x < -(fld.length / 2) ∨ |f.ball.y| > fld.width / 2 then
    (if |f.ball.y| < fld.goal_width / 2 then
      ⟨-50, true, { t1 with goal := t1.goal - 1 }⟩
    else ⟨reward1, true, { t1 with done_ball_out := t1.done_ball_out + 1 }⟩)
  else if f.ball.x > fld.length / 2 then
    (if |f.ball.y| < fld.goal_width / 2 then
      ⟨50, true, { t1 with goal := t1.goal + 1 }⟩
    else ⟨reward1, true, { t1 with done_ball_out := t1.done_ball_out + 1 }⟩)
  else
    match lastF with
    | some lf =>
        ⟨ball_grad_rw lf f fld + 0.2 * robot_grad_rw lf f active fld +
            -(energy_pen f) / energy_scale, done1,
          { t1 with
              rw_ball_grad := t1.rw_ball_grad + ball_grad_rw lf f fld
              rw_robot_grad := t1.rw_robot_grad + 0.2 * robot_grad_rw lf f active fld
              rw_energy := t1.rw_energy + -(energy_pen f) / energy_scale }⟩
    | none => ⟨reward1, done1, t1⟩

/-- The whole _calculate_reward_and_done: the mapping is rebuilt from
zeros on every call (the prev argument, the mapping carried over from
the previous tick, is discarded exactly as the source reassigns
self.reward_shaping_total), then the done-limit block runs, then the
elif chain. -/
noncomputable def calculate_reward_and_done (prev : Totals) (f : Frame)
    (lastF : Option Frame) (dl : ℝ) (active : Fin 3) (fld : Field) : RewardResult :=
  rule_chain f lastF active fld (rule_left_out f dl).1 (rule_left_out f dl).2.1
    (rule_left_out f dl).2.2

/-- One tick of diagnostics bookkeeping as seen from step. -/
structure TickInput where
  f : Frame
  lastF : Option Frame
  dl : ℝ
  active : Fin 3
  fld : Field

/-- Modelled from the spec: the base class step (SSLBaseEnv, outside
this repository) drives exactly one reward computation per tick, after
which step returns the stored reward_shaping_total mapping. Folding the
per-tick computation over a list of tick inputs yields the mapping step
returns after the last tick of the episode. -/
noncomputable def run_episode (ts : List TickInput) : Totals :=
  ts.foldl
    (fun tot t => (calculate_reward_and_done tot t.f t.lastF t.dl t.active t.fld).totals)
    zeroTotals

/-! ## Episode initializer (_get_initial_positions_frame) -/

/-- The goal/penalty exclusion area test in_gk_area: x beyond
length/2 - penalty_length with |y| below half the penalty width. -/
def in_gk_area (fld : Field) (p : Point) : Prop :=
  p.1 > fld.length / 2 - fld.penalty_length ∧ |p.2| < fld.penalty_width / 2

noncomputable instance (fld : Field) (p : Point) : Decidable (in_gk_area fld p) := by
  unfold in_gk_area
  exact inferInstance

/-- Modelled from the spec: the KDTree spatial index (rsoccer_gym.Utils,
outside this repository) holds the already placed points; get_nearest
returns the nearest inserted point and its distance, of which the
source only uses the distance. -/
noncomputable def get_nearest_dist (places : List Point) (p : Point) : ℝ :=
  match places with
  | [] => 0
  | q :: qs => qs.foldl (fun m r => min m (distPts p r)) (distPts p q)

/-- The ball sampling loop: draw positions until one outside the
exclusion area appears; fuel bounds the number of draws, k indexes the
sample stream. -/
noncomputable def sample_ball (s : ℕ → Point) (fld : Field) :
    ℕ → ℕ → Option (Point × ℕ)
  | 0, _ => none
  | (fuel + 1), k =>
      if in_gk_area fld (s k) then sample_ball s fld fuel (k + 1)
      else some (s k, k + 1)

/-- The robot placement loop: draw positions until one at nearest
distance at least 0.2 from every inserted point appears. -/
noncomputable def sample_free (s : ℕ → Point) (places : List Point) :
    ℕ → ℕ → Option (Point × ℕ)
  | 0, _ => none
  | (fuel + 1), k =>
      if get_nearest_dist places (s k) < 0.2 then sample_free s places fuel (k + 1)
      else some (s k, k + 1)

/-- Sequential placement of n robots, each accepted position being
inserted before the next robot is placed. Returns the accepted points,
the grown index contents and the next stream position. -/
noncomputable def place_many (s : ℕ → Point) :
    ℕ → ℕ → ℕ → List Point → Option (List Point × List Point × ℕ)
  | 0, _, k, places => some ([], places, k)
  | (n + 1), fuel, k, places =>
      match sample_free s places fuel k with
      | none => none
      | some (p, k1) =>
          match place_many s n fuel k1 (places ++ [p]) with
          | none => none
          | some (pts, places2, k2) => some (p :: pts, places2, k2)

/-- A placed robot of the initial frame: position and heading. -/
structure PlacedBot where
  pos : Point
  theta : ℝ

/-- The initial frame returned by _get_initial_positions_frame. -/
structure PosFrame where
  ball : Point
  blue : Fin 3 → PlacedBot
  yellow : Fin 3 → PlacedBot

/-- The frame assembled by the initializer from the accepted ball
position, the accepted blue points (for robots 1 and 2) and the
accepted yellow points: blue robot 0 sits at offset 0.09 from the ball
at the bearing drawn as the first angle sample, facing back (heading =
bearing + 180). -/
noncomputable def assemble_frame (ang : ℕ → ℝ) (bp : Point)
    (bluePts yellowPts : List Point) : PosFrame :=
  { ball := bp
    blue := fun i =>
      if i = 0 then
        ⟨(bp.1 + 0.09 * Real.cos (deg2rad (ang 0)),
          bp.2 + 0.09 * Real.sin (deg2rad (ang 0))), ang 0 + 180⟩
      else ⟨bluePts.getD (i.val - 1) (0, 0), ang i.val⟩
    yellow := fun i => ⟨yellowPts.getD i.val (0, 0), ang (3 + i.val)⟩ }

/-- The initializer _get_initial_positions_frame: sample the ball
outside the exclusion area; insert the ball into the index; place blue
robot 0 at offset 0.09 from the ball at the bearing drawn from the
angle stream, facing back (heading = bearing + 180); insert the BALL
position a second time (the source inserts pos_frame.ball again, so
the position of blue robot 0 never enters the index); then place blue
robots 1 and 2 and the three yellow robots by rejection sampling
against the index. The side effect self.done_limit = robot_x - 0.5 of
the source is not part of the returned frame and is treated as a
parameter by the reward engine embedding. -/
noncomputable def get_initial_positions_frame (pos : ℕ → Point) (ang : ℕ → ℝ)
    (fld : Field) (fuel : ℕ) : Option PosFrame :=
  match sample_ball pos fld fuel 0 with
  | none => none
  | some (bp, k0) =>
    match place_many pos 2 fuel k0 [bp, bp] with
    | none => none
    | some (bluePts, places1, k1) =>
      match place_many pos 3 fuel k1 places1 with
      | none => none
      | some (yellowPts, _, _) => some (assemble_frame ang bp bluePts yellowPts)

/-! ## Shared concrete inputs and evaluation helpers -/

/-- A concrete legal field geometry (division B sized SSL field). -/
noncomputable def stdField : Field := ⟨9, 6, 1, 2, 1⟩

/-- The standard field satisfies the spec invariants. -/
lemma stdField_valid : stdField.Valid := by
  unfold Field.Valid stdField
  norm_num

/-- Evaluation helper: the distance of two concrete points whose squared
distance is a known square. -/
lemma distPts_eval (p q : Point) (a : ℝ) (ha : 0 ≤ a)
    (h : (p.1 - q.1) ^ 2 + (p.2 - q.2) ^ 2 = a ^ 2) : distPts p q = a := by
  unfold distPts
  rw [h, Real.sqrt_sq ha]

/-- Evaluation helper: a lower bound 0.2 on a distance follows from the
bound 0.04 on the squared distance. -/
lemma sep_of_sq (p q : Point) (h : 0.04 ≤ (p.1 - q.1) ^ 2 + (p.2 - q.2) ^ 2) :
    (0.2 : ℝ) ≤ distPts p q := by
  unfold distPts
  have h2 : (0.2 : ℝ) = Real.sqrt 0.04 := by
    rw [show (0.04 : ℝ) = 0.2 ^ 2 by norm_num, Real.sqrt_sq (by norm_num)]
  rw [h2]
  exact Real.sqrt_le_sqrt h

/-- The clip result never exceeds the upper bound. -/
lemma clip_le_hi (x lo hi : ℝ) : clip x lo hi ≤ hi := min_le_right _ _

/-- The clip result never undercuts the lower bound when the bounds are
ordered. -/
lemma lo_le_clip (x lo hi : ℝ) (h : lo ≤ hi) : lo ≤ clip x lo hi :=
  le_min (le_max_right _ _) h

/-- Clipping zero to [-1, 1] gives zero. -/
lemma clip_zero : clip 0 (-1) 1 = 0 := by
  unfold clip
  rw [max_eq_left (by norm_num : (-1 : ℝ) ≤ 0), min_eq_left (by norm_num : (0 : ℝ) ≤ 1)]

/-! ## C10: first-tick possession sentinel -/

/-- C10: with no command set yet (commands is None), the possession
update returns the sentinel -1 for every frame; the whole possession
test is skipped until the first command set exists. -/
theorem possession_none_sentinel (f : Frame) : possession_update f none = -1 := rfl

/-! ## C9: gradient-term algebra -/

/-- C9: the ball-progress term equals the previous-minus-current
distance of the ball to the attacking goal center scaled by 10 and
clamped to [-1, 1]; the robot-progress term is likewise scaled by 10
and clamped using the minimum distance to the three goal reference
points; both terms always lie in [-1, 1]; and each is exactly 0 when
the relevant entity has the same position in the two frames. -/
theorem grad_terms_algebra (lf f : Frame) (active : Fin 3) (fld : Field) :
    (ball_grad_rw lf f fld =
      clip ((distPts (fld.length / 2, 0) (lf.ball.x, lf.ball.y) -
        distPts (fld.length / 2, 0) (f.ball.x, f.ball.y)) * 10) (-1) 1) ∧
    (robot_grad_rw lf f active fld =
      clip ((min (min
          (distPts (fld.length / 2, fld.goal_width / 2)
            ((lf.robots_blue active).x, (lf.robots_blue active).y))
          (distPts (fld.length / 2, -(fld.goal_width / 2))
            ((lf.robots_blue active).x, (lf.robots_blue active).y)))
          (distPts (fld.length / 2, 0)
            ((lf.robots_blue active).x, (lf.robots_blue active).y)) -
        min (min
          (distPts (fld.length / 2, fld.goal_width / 2)
            ((f.robots_blue active).x, (f.robots_blue active).y))
          (distPts (fld.length / 2, -(fld.goal_width / 2))
            ((f.robots_blue active).x, (f.robots_blue active).y)))
          (distPts (fld.length / 2, 0)
            ((f.robots_blue active).x, (f.robots_blue active).y))) * 10) (-1) 1) ∧
    (-1 ≤ ball_grad_rw lf f fld ∧ ball_grad_rw lf f fld ≤ 1) ∧
    (-1 ≤ robot_grad_rw lf f active fld ∧ robot_grad_rw lf f active fld ≤ 1) ∧
    ((lf.ball.x, lf.ball.y) = ((f.ball.x, f.ball.y) : Point) →
      ball_grad_rw lf f fld = 0) ∧
    (((lf.robots_blue active).x, (lf.robots_blue active).y) =
        (((f.robots_blue active).x, (f.robots_blue active).y) : Point) →
      robot_grad_rw lf f active fld = 0) := by
  have hsc : (1 / (0.1 : ℝ)) = 10 := by norm_num
  refine ⟨?_, ?_, ⟨lo_le_clip _ _ _ (by norm_num), clip_le_hi _ _ _⟩,
    ⟨lo_le_clip _ _ _ (by norm_num), clip_le_hi _ _ _⟩, ?_, ?_⟩
  · unfold ball_grad_rw
    rw [hsc]
  · unfold robot_grad_rw
    rw [hsc]
  · intro h
    unfold ball_grad_rw
    rw [h, sub_self, zero_mul, clip_zero]
  · intro h
    unfold robot_grad_rw
    rw [h]
    simp only [sub_self, zero_mul, clip_zero]

/-- A concrete frame used to instantiate the zero-movement case. -/
noncomputable def c9frame : Frame :=
  ⟨mkBall 1 1, fun _ => mkBot 1 1 0, fun _ => mkBot 2 2 0⟩

/-- Witness for C9: with identical previous and current frames both
gradient terms evaluate to 0. -/
theorem grad_terms_algebra_witness :
    ball_grad_rw c9frame c9frame stdField = 0 ∧
    robot_grad_rw c9frame c9frame 0 stdField = 0 :=
  ⟨(grad_terms_algebra c9frame c9frame 0 stdField).2.2.2.2.1 rfl,
   (grad_terms_algebra c9frame c9frame 0 stdField).2.2.2.2.2 rfl⟩

/-! ## C6: diagnostics accumulation -/

/-- A concrete tick whose frame puts blue robot 0 behind the done
limit, so the tick registers one done_left_out event. -/
noncomputable def c6frame : Frame :=
  ⟨mkBall 0 0, fun _ => mkBot (-1) 0 0, fun _ => mkBot 1 1 0⟩

/-- The concrete tick input built from that frame, with done limit 0. -/
noncomputable def c6tick : TickInput := ⟨c6frame, none, 0, 0, stdField⟩

/-- Evaluating the reward computation on the concrete tick: the rebuilt
mapping carries exactly one done_left_out event. -/
lemma c6_totals :
    (calculate_reward_and_done zeroTotals c6frame none 0 0 stdField).totals.done_left_out
      = 1 := by
  unfold calculate_reward_and_done rule_left_out rule_chain
  rw [if_pos (by norm_num [c6frame, mkBot, mkBall] :
    (c6frame.robots_blue 0).x < (0 : ℝ) ∨ c6frame.ball.x < (0 : ℝ))]
  rw [if_neg (by norm_num [c6frame, mkBot, mkBall, stdField] :
    ¬ (|(c6frame.robots_blue 0).y| > stdField.width / 2 ∨
       |(c6frame.robots_blue 0).x| > stdField.length / 2))]
  rw [if_neg (by norm_num [c6frame, mkBot, mkBall, stdField] :
    ¬ |c6frame.ball.y| > stdField.width / 2)]
  rw [if_neg (by norm_num [c6frame, mkBot, mkBall, stdField] :
    ¬ (c6frame.ball.x < -(stdField.length / 2) ∨
       |c6frame.ball.y| > stdField.width / 2))]
  rw [if_neg (by norm_num [c6frame, mkBot, mkBall, stdField] :
    ¬ c6frame.ball.x > stdField.length / 2)]
  norm_num [zeroTotals]

/-- Counterexample to C6: two identical ticks each register one
done_left_out event, yet after the two ticks the mapping returned by
step still carries 1, not the cumulative sum 2: values do not
accumulate across ticks of the episode. -/
theorem diagnostics_not_cumulative_counterexample :
    (run_episode [c6tick]).done_left_out = 1 ∧
    (run_episode [c6tick, c6tick]).done_left_out = 1 ∧
    (1 : ℤ) + 1 ≠ 1 := by
  refine ⟨?_, ?_, by norm_num⟩
  · unfold run_episode
    simp only [List.foldl]
    exact c6_totals
  · unfold run_episode
    simp only [List.foldl]
    exact c6_totals

/-- C6 amended: the diagnostics mapping is rebuilt from zeros at every
reward computation, independently of the mapping carried over from the
previous tick, so after any sequence of ticks the mapping step returns
carries exactly the terms of the last tick alone (cleared every tick,
not only at reset). -/
theorem diagnostics_per_tick (p q : Totals) (f : Frame) (lastF : Option Frame)
    (dl : ℝ) (active : Fin 3) (fld : Field) (ts : List TickInput) (t : TickInput) :
    calculate_reward_and_done p f lastF dl active fld =
      calculate_reward_and_done q f lastF dl active fld ∧
    run_episode (ts ++ [t]) =
      (calculate_reward_and_done zeroTotals t.f t.lastF t.dl t.active t.fld).totals := by
  constructor
  · rfl
  · unfold run_episode
    rw [List.foldl_append]
    rfl

/-! ## C5: goal rule -/

/-- C5: on a tick where no earlier rule fires (done limit respected,
robot within bounds, ball within the side lines) and the ball is past
the attacking length boundary, the episode terminates; inside the goal
mouth the reward is 50 and the goal counter becomes 1 with
done_ball_out untouched, outside it the reward stays 0 and
done_ball_out becomes 1 with goal untouched. -/
theorem goal_rule (prev : Totals) (f : Frame) (lastF : Option Frame) (dl : ℝ)
    (active : Fin 3) (fld : Field)
    (hlen : 0 < fld.length)
    (h1 : ¬ ((f.robots_blue 0).x < dl ∨ f.ball.x < dl))
    (h2 : ¬ (|(f.robots_blue 0).y| > fld.width / 2 ∨
        |(f.robots_blue 0).x| > fld.length / 2))
    (h3 : ¬ |f.ball.y| > fld.width / 2)
    (h4 : f.ball.x > fld.length / 2) :
    (calculate_reward_and_done prev f lastF dl active fld).done = true ∧
    (|f.ball.y| < fld.goal_width / 2 →
      (calculate_reward_and_done prev f lastF dl active fld).reward = 50 ∧
      (calculate_reward_and_done prev f lastF dl active fld).totals.goal = 1 ∧
      (calculate_reward_and_done prev f lastF dl active fld).totals.done_ball_out = 0) ∧
    (¬ |f.ball.y| < fld.goal_width / 2 →
      (calculate_reward_and_done prev f lastF dl active fld).reward = 0 ∧
      (calculate_reward_and_done prev f lastF dl active fld).totals.done_ball_out = 1 ∧
      (calculate_reward_and_done prev f lastF dl active fld).totals.goal = 0) := by
  have h5 : ¬ (f.ball.x < -(fld.length / 2) ∨ |f.ball.y| > fld.width / 2) := by
    push_neg
    constructor
    · linarith
    · exact not_lt.mp h3
  unfold calculate_reward_and_done rule_left_out rule_chain
  rw [if_neg h1]
  rw [if_neg h2, if_neg h3, if_neg h5, if_pos h4]
  by_cases hg : |f.ball.y| < fld.goal_width / 2
  · rw [if_pos hg]
    exact ⟨rfl, fun _ => ⟨rfl, by norm_num [zeroTotals], by norm_num [zeroTotals]⟩,
      fun hc => absurd hg hc⟩
  · rw [if_neg hg]
    exact ⟨rfl, fun hc => absurd hc hg,
      fun _ => ⟨rfl, by norm_num [zeroTotals], by norm_num [zeroTotals]⟩⟩

/-- A concrete frame for the goal case: controlled robot at the center,
ball past the attacking boundary inside the goal mouth. -/
noncomputable def c5frame : Frame :=
  ⟨mkBall 5 0, fun _ => mkBot 0 0 0, fun _ => mkBot 1 1 0⟩

/-- Witness for C5: the concrete goal tick yields reward 50. -/
theorem goal_rule_witness :
    (calculate_reward_and_done zeroTotals c5frame none (-10) 0 stdField).reward = 50 :=
  (((goal_rule zeroTotals c5frame none (-10) 0 stdField
      (by norm_num [stdField])
      (by norm_num [c5frame, mkBot, mkBall])
      (by norm_num [c5frame, mkBot, mkBall, stdField])
      (by norm_num [c5frame, mkBot, mkBall, stdField])
      (by norm_num [c5frame, mkBot, mkBall, stdField])).2.1
    (by norm_num [c5frame, mkBall, stdField])).1)

/-! ## C1: done-limit termination priority -/

/-- The elif chain always reports done when the incoming done flag is
already set. -/
lemma rule_chain_done (f : Frame) (lastF : Option Frame) (active : Fin 3)
    (fld : Field) (r : ℝ) (t : Totals) :
    (rule_chain f lastF active fld r true t).done = true := by
  unfold rule_chain
  split
  · rfl
  · split
    · rfl
    · split
      · split <;> rfl
      · split
        · split <;> rfl
        · cases lastF <;> rfl

/-- The elif chain never touches the done_left_out counter. -/
lemma rule_chain_left_out (f : Frame) (lastF : Option Frame) (active : Fin 3)
    (fld : Field) (r : ℝ) (d : Bool) (t : Totals) :
    (rule_chain f lastF active fld r d t).totals.done_left_out = t.done_left_out := by
  unfold rule_chain
  split
  · rfl
  · split
    · rfl
    · split
      · split <;> rfl
      · split
        · split <;> rfl
        · cases lastF <;> rfl

/-- Counterexample to C1: with the done limit at 0, blue robot 0 at
x = -1 (behind the limit) and the ball at (5, 0) past the attacking
boundary inside the goal mouth, the returned reward is 50 and the goal
counter is incremented, even though done_left_out is also incremented:
the done-limit rule does not fix the reward at -10. -/
theorem left_out_goal_override_counterexample :
    ((Frame.robots_blue ⟨mkBall 5 0, fun _ => mkBot (-1) 0 0, fun _ => mkBot 1 1 0⟩ 0).x
        < (0 : ℝ)) ∧
    (calculate_reward_and_done zeroTotals
        ⟨mkBall 5 0, fun _ => mkBot (-1) 0 0, fun _ => mkBot 1 1 0⟩
        none 0 0 stdField).reward = 50 ∧
    (calculate_reward_and_done zeroTotals
        ⟨mkBall 5 0, fun _ => mkBot (-1) 0 0, fun _ => mkBot 1 1 0⟩
        none 0 0 stdField).reward ≠ -10 ∧
    (calculate_reward_and_done zeroTotals
        ⟨mkBall 5 0, fun _ => mkBot (-1) 0 0, fun _ => mkBot 1 1 0⟩
        none 0 0 stdField).totals.done_left_out = 1 ∧
    (calculate_reward_and_done zeroTotals
        ⟨mkBall 5 0, fun _ => mkBot (-1) 0 0, fun _ => mkBot 1 1 0⟩
        none 0 0 stdField).totals.goal = 1 := by
  have hcalc : calculate_reward_and_done zeroTotals
      ⟨mkBall 5 0, fun _ => mkBot (-1) 0 0, fun _ => mkBot 1 1 0⟩
      none 0 0 stdField =
      ⟨50, true, { zeroTotals with
        done_left_out := zeroTotals.done_left_out + 1
        goal := zeroTotals.goal + 1 }⟩ := by
    unfold calculate_reward_and_done rule_left_out rule_chain
    rw [if_pos (by norm_num [mkBot, mkBall] :
      ((Frame.robots_blue ⟨mkBall 5 0, fun _ => mkBot (-1) 0 0, fun _ => mkBot 1 1 0⟩ 0).x
          < (0 : ℝ) ∨
        (Frame.ball ⟨mkBall 5 0, fun _ => mkBot (-1) 0 0, fun _ => mkBot 1 1 0⟩).x
          < (0 : ℝ)))]
    rw [if_neg (by norm_num [mkBot, mkBall, stdField])]
    rw [if_neg (by norm_num [mkBot, mkBall, stdField])]
    rw [if_neg (by norm_num [mkBot, mkBall, stdField])]
    rw [if_pos (by norm_num [mkBot, mkBall, stdField])]
    rw [if_pos (by norm_num [mkBot, mkBall, stdField])]
  refine ⟨by norm_num [mkBot], ?_, ?_, ?_, ?_⟩ <;> rw [hcalc] <;> norm_num [zeroTotals]

/-- C1 amended: whenever the controlled robot or the ball is behind the
done limit the episode terminates and done_left_out is incremented, but
the reward is -10 only when the subsequent chain assigns none: it stays
-10 when the robot is simultaneously out of bounds, or when no chain
condition fires and no previous frame exists; when the ball is
simultaneously past the attacking boundary inside the goal mouth (robot
in bounds), the chain overrides the reward to 50 and increments the
goal counter. -/
theorem left_out_amended (prev : Totals) (f : Frame) (lastF : Option Frame)
    (dl : ℝ) (active : Fin 3) (fld : Field)
    (hv : fld.Valid)
    (h1 : (f.robots_blue 0).x < dl ∨ f.ball.x < dl) :
    (calculate_reward_and_done prev f lastF dl active fld).done = true ∧
    (calculate_reward_and_done prev f lastF dl active fld).totals.done_left_out = 1 ∧
    ((|(f.robots_blue 0).y| > fld.width / 2 ∨ |(f.robots_blue 0).x| > fld.length / 2) →
      (calculate_reward_and_done prev f lastF dl active fld).reward = -10) ∧
    ((¬ (|(f.robots_blue 0).y| > fld.width / 2 ∨
          |(f.robots_blue 0).x| > fld.length / 2) ∧
        ¬ |f.ball.y| > fld.width / 2 ∧ ¬ f.ball.x < -(fld.length / 2) ∧
        ¬ f.ball.x > fld.length / 2 ∧ lastF = none) →
      (calculate_reward_and_done prev f lastF dl active fld).reward = -10) ∧
    ((¬ (|(f.robots_blue 0).y| > fld.width / 2 ∨
          |(f.robots_blue 0).x| > fld.length / 2) ∧
        f.ball.x > fld.length / 2 ∧ |f.ball.y| < fld.goal_width / 2) →
      (calculate_reward_and_done prev f lastF dl active fld).reward = 50 ∧
      (calculate_reward_and_done prev f lastF dl active fld).totals.goal = 1) := by
  have hro : rule_left_out f dl =
      (-10, true, { zeroTotals with done_left_out := zeroTotals.done_left_out + 1 }) := by
    unfold rule_left_out
    rw [if_pos h1]
  unfold calculate_reward_and_done
  rw [hro]
  refine ⟨rule_chain_done _ _ _ _ _ _, ?_, ?_, ?_, ?_⟩
  · rw [rule_chain_left_out]
    norm_num [zeroTotals]
  · intro h2
    unfold rule_chain
    rw [if_pos h2]
  · rintro ⟨h2, h3, h4, h5, rfl⟩
    unfold rule_chain
    rw [if_neg h2, if_neg h3,
      if_neg (by
        push_neg
        exact ⟨not_lt.mp h4, not_lt.mp h3⟩), if_neg h5]
  · rintro ⟨h2, h4, hg⟩
    have hlen : 0 < fld.length := hv.1
    have hgw : fld.goal_width < fld.width := hv.2.2.2.2.2.1
    have h3 : ¬ |f.ball.y| > fld.width / 2 := by
      push_neg
      have : fld.goal_width / 2 ≤ fld.width / 2 := by linarith
      linarith [hg]
    have h5 : ¬ (f.ball.x < -(fld.length / 2) ∨ |f.ball.y| > fld.width / 2) := by
      push_neg
      exact ⟨by linarith, not_lt.mp h3⟩
    unfold rule_chain
    rw [if_neg h2, if_neg h3, if_neg h5, if_pos h4, if_pos hg]
    exact ⟨rfl, by norm_num [zeroTotals]⟩

/-- Witness for C1 amended: at the concrete override tick the theorem
yields the 50 reward and the incremented goal counter. -/
theorem left_out_amended_witness :
    (calculate_reward_and_done zeroTotals
        ⟨mkBall 5 0, fun _ => mkBot (-1) 0 0, fun _ => mkBot 1 1 0⟩
        none 0 0 stdField).reward = 50 ∧
    (calculate_reward_and_done zeroTotals
        ⟨mkBall 5 0, fun _ => mkBot (-1) 0 0, fun _ => mkBot 1 1 0⟩
        none 0 0 stdField).totals.goal = 1 :=
  (left_out_amended zeroTotals
      ⟨mkBall 5 0, fun _ => mkBot (-1) 0 0, fun _ => mkBot 1 1 0⟩
      none 0 0 stdField stdField_valid
      (by norm_num [mkBot, mkBall])).2.2.2.2
    ⟨by norm_num [mkBot, mkBall, stdField],
     by norm_num [mkBot, mkBall, stdField],
     by norm_num [mkBot, mkBall, stdField]⟩

/-! ## C2: command routing -/

/-- The concrete frame used by the command routing counterexample. -/
noncomputable def c2frame : Frame :=
  ⟨mkBall 0 0, fun _ => mkBot 0 0 0, fun _ => mkBot 0 0 0⟩

/-- A concrete policy action whose every component is 1. -/
noncomputable def c2actions : Fin 4 → ℝ := fun _ => 1

/-- A concrete sample stream whose every component is -1. -/
noncomputable def c2bs : Fin 3 → Fin 4 → ℝ := fun _ _ => -1

/-- A concrete uniform-draw stream that always draws 0. -/
noncomputable def c2bd : Fin 3 → ℝ := fun _ => 0

/-- A concrete yellow sample stream of zeros. -/
noncomputable def c2ys : Fin 3 → Fin 4 → ℝ := fun _ _ => 0

/-- Counterexample to C2: with active robot index 1, the command built
for the active robot carries id 0, not the active robot identity 1;
and the kick of non-active blue robot 0 fires from the policy kick
component (draw 0 < 1) even though the comparison against the robot own
sampled kick component (draw 0 < -1) fails. -/
theorem active_command_id_counterexample :
    ((get_commands c2actions 1 c2frame c2bs c2bd c2ys).getD 1 default).id = 0 ∧
    ((get_commands c2actions 1 c2frame c2bs c2bd c2ys).getD 1 default).id ≠ 1 ∧
    ((get_commands c2actions 1 c2frame c2bs c2bd c2ys).getD 0 default).kick_v_x =
      kick_speed_x ∧
    ¬ (c2bd 0 < c2bs 0 3) := by
  have hid : ((get_commands c2actions 1 c2frame c2bs c2bd c2ys).getD 1 default).id = 0 :=
    rfl
  refine ⟨hid, by rw [hid]; norm_num, ?_, by norm_num [c2bd, c2bs]⟩
  show (if c2bd 0 < c2actions 3 then kick_speed_x else 0) = kick_speed_x
  rw [if_pos (show c2bd 0 < c2actions 3 by norm_num [c2bd, c2actions])]

/-- C2 amended: the policy action is decoded (with the active robot
heading) into the command at the active position, but that command
carries id 0 rather than the active robot identity; every other blue
robot gets its own sampled action through the same decode path except
that its kick decision compares the uniform draw against the policy
kick component; yellow robots get their own sampled actions with the
kick decision taken from their own sampled kick component. -/
theorem get_commands_amended (actions : Fin 4 → ℝ) (active : Fin 3) (f : Frame)
    (bs : Fin 3 → Fin 4 → ℝ) (bd : Fin 3 → ℝ) (ys : Fin 3 → Fin 4 → ℝ)
    (i : Fin 3) :
    (get_commands actions active f bs bd ys).length = 6 ∧
    (get_commands actions active f bs bd ys).getD active.val default =
      { yellow := false
        id := 0
        v_x := (convert_actions actions (deg2rad (f.robots_blue active).theta)).1
        v_y := (convert_actions actions (deg2rad (f.robots_blue active).theta)).2.1
        v_theta := (convert_actions actions (deg2rad (f.robots_blue active).theta)).2.2
        kick_v_x := if bd active < actions 3 then kick_speed_x else 0
        dribbler := true } ∧
    (i ≠ active →
      (get_commands actions active f bs bd ys).getD i.val default =
        { yellow := false
          id := i.val
          v_x := (convert_actions (bs i) (deg2rad (f.robots_blue i).theta)).1
          v_y := (convert_actions (bs i) (deg2rad (f.robots_blue i).theta)).2.1
          v_theta := (convert_actions (bs i) (deg2rad (f.robots_blue i).theta)).2.2
          kick_v_x := if bd i < actions 3 then kick_speed_x else 0
          dribbler := true }) ∧
    (get_commands actions active f bs bd ys).getD (3 + i.val) default =
      { yellow := true
        id := i.val
        v_x := (convert_actions (ys i) (deg2rad (f.robots_yellow i).theta)).1
        v_y := (convert_actions (ys i) (deg2rad (f.robots_yellow i).theta)).2.1
        v_theta := (convert_actions (ys i) (deg2rad (f.robots_yellow i).theta)).2.2
        kick_v_x := if ys i 3 > 0 then kick_speed_x else 0
        dribbler := true } := by
  refine ⟨rfl, ?_, ?_, ?_⟩
  · fin_cases active <;> rfl
  · intro hne
    fin_cases i <;> fin_cases active <;>
      first
        | exact absurd rfl hne
        | rfl
  · fin_cases i <;> rfl

/-- Witness for C2 amended: the non-active branch instantiated at blue
robot 0 with active robot 1 on the concrete inputs. -/
theorem get_commands_amended_witness :
    (get_commands c2actions 1 c2frame c2bs c2bd c2ys).getD 0 default =
      { yellow := false
        id := 0
        v_x := (convert_actions (c2bs 0) (deg2rad (c2frame.robots_blue 0).theta)).1
        v_y := (convert_actions (c2bs 0) (deg2rad (c2frame.robots_blue 0).theta)).2.1
        v_theta := (convert_actions (c2bs 0) (deg2rad (c2frame.robots_blue 0).theta)).2.2
        kick_v_x := if c2bd 0 < c2actions 3 then kick_speed_x else 0
        dribbler := true } :=
  (get_commands_amended c2actions 1 c2frame c2bs c2bd c2ys 0).2.2.1
    (by decide)

/-! ## C4: possession heuristic -/

/-- The fold-up loop leaves an angle not below -pi unchanged. -/
lemma fold_up_id (a : ℝ) (h : ¬ a < -Real.pi) : fold_up a = a := by
  unfold fold_up
  rw [dif_neg h]

/-- The fold-down loop leaves an angle not above pi unchanged. -/
lemma fold_down_id (a : ℝ) (h : ¬ Real.pi < a) : fold_down a = a := by
  unfold fold_down
  rw [dif_neg h]

/-- atan2 of zero over a positive x is zero. -/
lemma atan2_zero_pos (x : ℝ) (hx : 0 < x) : atan2 0 x = 0 := by
  unfold atan2
  rw [if_pos hx, zero_div, Real.arctan_zero]

/-- atan2 of zero over a negative x is pi. -/
lemma atan2_zero_neg (x : ℝ) (hx : x < 0) : atan2 0 x = Real.pi := by
  unfold atan2
  rw [if_neg (not_lt.mpr hx.le), if_pos ⟨hx, le_refl (0 : ℝ)⟩, zero_div,
    Real.arctan_zero, zero_add]

/-- The possession update on an existing command set, written as the
two-sided conditional of the source. -/
lemma possession_update_some (f : Frame) (cs : List Cmd) :
    possession_update f (some cs) =
      if (nearest_blue f).2 ≤ (nearest_yellow f).2 then
        if (nearest_blue f).2 ≤ 0.15 ∧
            (cs.getD (nearest_blue f).1.val default).dribbler = true ∧
            is_toward_ball f Team.blue (nearest_blue f).1 then
          ((nearest_blue f).1.val : ℤ)
        else -1
      else
        if (nearest_yellow f).2 ≤ 0.15 ∧
            (cs.getD (3 + (nearest_yellow f).1.val) default).dribbler = true ∧
            is_toward_ball f Team.yellow (nearest_blue f).1 then
          3 + ((nearest_yellow f).1.val : ℤ)
        else -1 := rfl

/-- C4 amended: a side is recorded in possession only when its nearest
robot is within 0.15 of the ball and the most recent command of that
robot has the dribbler engaged; for the blue side the facing test is also
evaluated on the nearest blue robot, but for the yellow side the facing
test is evaluated on the yellow robot whose roster index equals the
index of the nearest blue robot. When the nearest robot of the nearer side is
farther than 0.15 the index stays the sentinel -1, and on the blue side
a failed facing test also forces the sentinel. -/
theorem possession_update_amended (f : Frame) (cs : List Cmd) :
    (((nearest_blue f).2 ≤ (nearest_yellow f).2 ∧
        (0.15 < (nearest_blue f).2 ∨ ¬ is_toward_ball f Team.blue (nearest_blue f).1)) →
      possession_update f (some cs) = -1) ∧
    (((nearest_yellow f).2 < (nearest_blue f).2 ∧ 0.15 < (nearest_yellow f).2) →
      possession_update f (some cs) = -1) ∧
    ((0 ≤ possession_update f (some cs) ∧ possession_update f (some cs) < 3) →
      possession_update f (some cs) = ((nearest_blue f).1.val : ℤ) ∧
      (nearest_blue f).2 ≤ (nearest_yellow f).2 ∧ (nearest_blue f).2 ≤ 0.15 ∧
      (cs.getD (nearest_blue f).1.val default).dribbler = true ∧
      is_toward_ball f Team.blue (nearest_blue f).1) ∧
    (3 ≤ possession_update f (some cs) →
      possession_update f (some cs) = 3 + ((nearest_yellow f).1.val : ℤ) ∧
      (nearest_yellow f).2 < (nearest_blue f).2 ∧ (nearest_yellow f).2 ≤ 0.15 ∧
      (cs.getD (3 + (nearest_yellow f).1.val) default).dribbler = true ∧
      is_toward_ball f Team.yellow (nearest_blue f).1) := by
  rw [possession_update_some]
  by_cases hcmp : (nearest_blue f).2 ≤ (nearest_yellow f).2
  · rw [if_pos hcmp]
    by_cases hcond : (nearest_blue f).2 ≤ 0.15 ∧
        (cs.getD (nearest_blue f).1.val default).dribbler = true ∧
        is_toward_ball f Team.blue (nearest_blue f).1
    · rw [if_pos hcond]
      refine ⟨?_, ?_, ?_, ?_⟩
      · rintro ⟨-, hbad | hbad⟩
        · exact absurd hcond.1 (not_le.mpr hbad)
        · exact absurd hcond.2.2 hbad
      · rintro ⟨hlt, -⟩
        exact absurd hcmp (not_le.mpr hlt)
      · intro _
        exact ⟨rfl, hcmp, hcond.1, hcond.2.1, hcond.2.2⟩
      · intro h3
        exfalso
        have hb := (nearest_blue f).1.isLt
        omega
    · rw [if_neg hcond]
      refine ⟨fun _ => rfl, fun _ => rfl, ?_, ?_⟩
      · rintro ⟨h0, -⟩
        exact absurd h0 (by norm_num)
      · intro h3
        exact absurd h3 (by norm_num)
  · rw [if_neg hcmp]
    by_cases hcond : (nearest_yellow f).2 ≤ 0.15 ∧
        (cs.getD (3 + (nearest_yellow f).1.val) default).dribbler = true ∧
        is_toward_ball f Team.yellow (nearest_blue f).1
    · rw [if_pos hcond]
      refine ⟨?_, ?_, ?_, ?_⟩
      · rintro ⟨hle, -⟩
        exact absurd hle hcmp
      · rintro ⟨-, hfar⟩
        exact absurd hcond.1 (not_le.mpr hfar)
      · rintro ⟨-, hlt3⟩
        exfalso
        have hy := (nearest_yellow f).1.isLt
        omega
      · intro _
        exact ⟨rfl, not_le.mp hcmp, hcond.1, hcond.2.1, hcond.2.2⟩
    · rw [if_neg hcond]
      refine ⟨fun _ => rfl, fun _ => rfl, ?_, ?_⟩
      · rintro ⟨h0, -⟩
        exact absurd h0 (by norm_num)
      · intro h3
        exact absurd h3 (by norm_num)

/-- The concrete frame of the possession counterexample: ball at the
origin, nearest blue robot is blue 0 at distance 2; nearest yellow is
yellow 1 at (0.1, 0) heading 0 (facing away from the ball), while
yellow 0 at (-1, 0) heading 0 faces the ball. -/
noncomputable def c4frame : Frame :=
  ⟨mkBall 0 0,
   ![mkBot (-2) 0 0, mkBot (-4) 0 0, mkBot 0 (-4) 0],
   ![mkBot (-1) 0 0, mkBot 0.1 0 0, mkBot 0 3 0]⟩

/-- A command set with every dribbler engaged. -/
noncomputable def c4cmds : List Cmd :=
  List.replicate 6 ⟨false, 0, 0, 0, 0, 0, true⟩

/-- The nearest blue robot of the concrete frame is blue 0 at
distance 2. -/
lemma c4_nb : nearest_blue c4frame = (0, 2) := by
  have e0 : distPts (c4frame.ball.x, c4frame.ball.y)
      ((team_robot c4frame Team.blue 0).x, (team_robot c4frame Team.blue 0).y) = 2 :=
    distPts_eval _ _ 2 (by norm_num)
      (by norm_num [c4frame, team_robot, mkBot, mkBall])
  have e1 : distPts (c4frame.ball.x, c4frame.ball.y)
      ((team_robot c4frame Team.blue 1).x, (team_robot c4frame Team.blue 1).y) = 4 :=
    distPts_eval _ _ 4 (by norm_num)
      (by norm_num [c4frame, team_robot, mkBot, mkBall])
  have e2 : distPts (c4frame.ball.x, c4frame.ball.y)
      ((team_robot c4frame Team.blue 2).x, (team_robot c4frame Team.blue 2).y) = 4 :=
    distPts_eval _ _ 4 (by norm_num)
      (by norm_num [c4frame, team_robot, mkBot, mkBall])
  unfold nearest_blue get_nearest_robot_idx
  rw [e0, e1, e2]
  rw [if_pos (by norm_num)]

/-- The nearest yellow robot of the concrete frame is yellow 1 at
distance 0.1. -/
lemma c4_ny : nearest_yellow c4frame = (1, 0.1) := by
  have e0 : distPts (c4frame.ball.x, c4frame.ball.y)
      ((team_robot c4frame Team.yellow 0).x, (team_robot c4frame Team.yellow 0).y) = 1 :=
    distPts_eval _ _ 1 (by norm_num)
      (by norm_num [c4frame, team_robot, mkBot, mkBall])
  have e1 : distPts (c4frame.ball.x, c4frame.ball.y)
      ((team_robot c4frame Team.yellow 1).x, (team_robot c4frame Team.yellow 1).y) = 0.1 :=
    distPts_eval _ _ 0.1 (by norm_num)
      (by norm_num [c4frame, team_robot, mkBot, mkBall])
  have e2 : distPts (c4frame.ball.x, c4frame.ball.y)
      ((team_robot c4frame Team.yellow 2).x, (team_robot c4frame Team.yellow 2).y) = 3 :=
    distPts_eval _ _ 3 (by norm_num)
      (by norm_num [c4frame, team_robot, mkBot, mkBall])
  unfold nearest_yellow get_nearest_robot_idx
  rw [e0, e1, e2]
  rw [if_neg (by norm_num), if_pos (by norm_num)]

/-- Yellow robot 0 of the concrete frame faces the ball exactly. -/
lemma c4_toward_y0 : is_toward_ball c4frame Team.yellow 0 := by
  have h1 : c4frame.ball.y - (team_robot c4frame Team.yellow 0).y = 0 := by
    norm_num [c4frame, team_robot, mkBot, mkBall]
  have h2 : c4frame.ball.x - (team_robot c4frame Team.yellow 0).x = 1 := by
    norm_num [c4frame, team_robot, mkBot, mkBall]
  have h3 : deg2rad (team_robot c4frame Team.yellow 0).theta = 0 := by
    norm_num [c4frame, team_robot, mkBot, mkBall, deg2rad]
  unfold is_toward_ball
  rw [h1, h2, h3, atan2_zero_pos 1 one_pos]
  rw [show (0 : ℝ) - 0 = 0 from sub_zero 0]
  rw [fold_up_id 0 (not_lt.mpr (by linarith [Real.pi_pos]))]
  rw [fold_down_id 0 (not_lt.mpr (by linarith [Real.pi_pos]))]
  rw [abs_zero, sub_zero, sub_zero, div_self Real.pi_ne_zero]
  norm_num

/-- Yellow robot 1 of the concrete frame, the nearest yellow robot,
does not face the ball (it faces directly away). -/
lemma c4_not_toward_y1 : ¬ is_toward_ball c4frame Team.yellow 1 := by
  have h1 : c4frame.ball.y - (team_robot c4frame Team.yellow 1).y = 0 := by
    norm_num [c4frame, team_robot, mkBot, mkBall]
  have h2 : c4frame.ball.x - (team_robot c4frame Team.yellow 1).x = -0.1 := by
    norm_num [c4frame, team_robot, mkBot, mkBall]
  have h3 : deg2rad (team_robot c4frame Team.yellow 1).theta = 0 := by
    norm_num [c4frame, team_robot, mkBot, mkBall, deg2rad]
  unfold is_toward_ball
  rw [h1, h2, h3, atan2_zero_neg (-0.1) (by norm_num)]
  rw [sub_zero, sub_zero]
  rw [fold_up_id Real.pi (not_lt.mpr (by linarith [Real.pi_pos]))]
  rw [fold_down_id Real.pi (lt_irrefl Real.pi)]
  rw [abs_of_nonneg Real.pi_pos.le, sub_self, zero_div]
  norm_num

/-- The possession update on the concrete frame records yellow robot 1
as possessing (index 3 + 1 = 4). -/
lemma c4_poss : possession_update c4frame (some c4cmds) = 4 := by
  rw [possession_update_some, c4_nb, c4_ny]
  rw [if_neg (by norm_num)]
  rw [if_pos ⟨by norm_num, rfl, c4_toward_y0⟩]
  norm_num

/-- Counterexample to C4: on the concrete frame the would-be possessing
side is yellow, whose nearest robot (yellow 1, at distance 0.1 with
dribbler engaged) does not face the ball within the tolerance, yet the
possession index does not stay -1: it records yellow 1, because the
facing test was evaluated on yellow robot 0 (the yellow robot indexed
by the nearest blue index). -/
theorem possession_yellow_facing_counterexample :
    possession_update c4frame (some c4cmds) = 4 ∧
    nearest_yellow c4frame = (1, 0.1) ∧
    ((0.1 : ℝ) ≤ 0.15) ∧
    ¬ is_toward_ball c4frame Team.yellow 1 ∧
    (4 : ℤ) ≠ -1 := by
  exact ⟨c4_poss, c4_ny, by norm_num, c4_not_toward_y1, by norm_num⟩

/-- Witness for C4 amended: on the concrete frame the yellow
only-if clause yields the recorded index 3 + 1 together with the facts
it guarantees. -/
theorem possession_update_amended_witness :
    possession_update c4frame (some c4cmds) =
      3 + ((nearest_yellow c4frame).1.val : ℤ) :=
  ((possession_update_amended c4frame c4cmds).2.2.2
    (by rw [c4_poss]; norm_num)).1

/-! ## C3: episode initializer -/

/-- Folding min over distances never exceeds the initial accumulator. -/
lemma foldl_min_le_init (p : Point) (t : List Point) (a : ℝ) :
    t.foldl (fun m r => min m (distPts p r)) a ≤ a := by
  induction t generalizing a with
  | nil => exact le_refl a
  | cons hd tl ih =>
      simp only [List.foldl_cons]
      exact le_trans (ih (min a (distPts p hd))) (min_le_left _ _)

/-- Folding min over distances never exceeds the distance to a list
member. -/
lemma foldl_min_le_mem (p q : Point) (t : List Point) (h : q ∈ t) (a : ℝ) :
    t.foldl (fun m r => min m (distPts p r)) a ≤ distPts p q := by
  induction t generalizing a with
  | nil => exact absurd h (List.not_mem_nil q)
  | cons hd tl ih =>
      simp only [List.foldl_cons]
      rcases List.mem_cons.mp h with rfl | h2
      · exact le_trans (foldl_min_le_init p tl _) (min_le_right _ _)
      · exact ih h2 _

/-- The nearest distance is at most the distance to any inserted point. -/
lemma get_nearest_dist_le (places : List Point) (p q : Point) (h : q ∈ places) :
    get_nearest_dist places p ≤ distPts p q := by
  cases places with
  | nil => exact absurd h (List.not_mem_nil q)
  | cons hd tl =>
      unfold get_nearest_dist
      rcases List.mem_cons.mp h with rfl | h2
      · exact foldl_min_le_init p tl _
      · exact foldl_min_le_mem p q tl h2 _

/-- A common lower bound on the accumulator and all distances bounds the
min fold from below. -/
lemma foldl_min_lower (p : Point) (c : ℝ) (t : List Point)
    (h : ∀ r ∈ t, c ≤ distPts p r) (a : ℝ) (ha : c ≤ a) :
    c ≤ t.foldl (fun m r => min m (distPts p r)) a := by
  induction t generalizing a with
  | nil => exact ha
  | cons hd tl ih =>
      simp only [List.foldl_cons]
      exact ih (fun r hr => h r (List.mem_cons_of_mem hd hr)) _
        (le_min ha (h hd (List.mem_cons_self hd tl)))

/-- A common lower bound on all distances to inserted points bounds the
nearest distance from below. -/
lemma le_get_nearest_dist (places : List Point) (p : Point) (hne : places ≠ [])
    (h : ∀ q ∈ places, (0.2 : ℝ) ≤ distPts p q) :
    (0.2 : ℝ) ≤ get_nearest_dist places p := by
  cases places with
  | nil => exact absurd rfl hne
  | cons hd tl =>
      unfold get_nearest_dist
      exact foldl_min_lower p 0.2 tl
        (fun r hr => h r (List.mem_cons_of_mem hd hr)) _
        (h hd (List.mem_cons_self hd tl))

/-- Every position accepted by the placement loop is at distance at
least 0.2 from every inserted point. -/
lemma sample_free_mem_dist (s : ℕ → Point) (places : List Point) :
    ∀ fuel k p k2, sample_free s places fuel k = some (p, k2) →
      ∀ q ∈ places, (0.2 : ℝ) ≤ distPts p q := by
  intro fuel
  induction fuel with
  | zero =>
      intro k p k2 h
      simp [sample_free] at h
  | succ n ih =>
      intro k p k2 h
      unfold sample_free at h
      by_cases hg : get_nearest_dist places (s k) < 0.2
      · rw [if_pos hg] at h
        exact ih (k + 1) p k2 h
      · rw [if_neg hg] at h
        have h1 : s k = p := congrArg Prod.fst (Option.some.inj h)
        subst h1
        intro q hq
        exact le_trans (not_lt.mp hg) (get_nearest_dist_le places (s k) q hq)

/-- Every ball position accepted by the ball sampling loop lies outside
the exclusion area. -/
lemma sample_ball_not_gk (s : ℕ → Point) (fld : Field) :
    ∀ fuel k p k2, sample_ball s fld fuel k = some (p, k2) →
      ¬ in_gk_area fld p := by
  intro fuel
  induction fuel with
  | zero =>
      intro k p k2 h
      simp [sample_ball] at h
  | succ n ih =>
      intro k p k2 h
      unfold sample_ball at h
      by_cases hg : in_gk_area fld (s k)
      · rw [if_pos hg] at h
        exact ih (k + 1) p k2 h
      · rw [if_neg hg] at h
        have h1 : s k = p := congrArg Prod.fst (Option.some.inj h)
        rw [← h1]
        exact hg

/-- The zero-robot placement returns the index unchanged. -/
lemma place_many_zero (s : ℕ → Point) (fuel k : ℕ) (places : List Point) :
    place_many s 0 fuel k places = some ([], places, k) := rfl

/-- One placement step of the sequential placement. -/
lemma place_many_succ (s : ℕ → Point) (n fuel k : ℕ) (places : List Point) :
    place_many s (n + 1) fuel k places =
      match sample_free s places fuel k with
      | none => none
      | some (p, k1) =>
          match place_many s n fuel k1 (places ++ [p]) with
          | none => none
          | some (pts, places2, k2) => some (p :: pts, places2, k2) := rfl

/-- Distance separation is symmetric. -/
lemma sep_flip {a b : Point} (h : (0.2 : ℝ) ≤ distPts a b) :
    (0.2 : ℝ) ≤ distPts b a := by
  rwa [distPts_comm]

/-- Specification of the sequential placement: the index grows by
exactly the accepted points, there are n of them, each is separated
from every previously inserted point, and they are pairwise
separated. -/
lemma place_many_spec (s : ℕ → Point) :
    ∀ n fuel k places pts places2 k2,
      place_many s n fuel k places = some (pts, places2, k2) →
      places2 = places ++ pts ∧ pts.length = n ∧
      (∀ p ∈ pts, ∀ q ∈ places, (0.2 : ℝ) ≤ distPts p q) ∧
      List.Pairwise (fun a b => (0.2 : ℝ) ≤ distPts a b) pts := by
  intro n
  induction n with
  | zero =>
      intro fuel k places pts places2 k2 h
      rw [place_many_zero] at h
      have h3 := Option.some.inj h
      have h4 : ([] : List Point) = pts := congrArg (fun x => x.1) h3
      have h5 : places = places2 := congrArg (fun x => x.2.1) h3
      subst h4
      subst h5
      exact ⟨by simp, rfl, by simp, List.Pairwise.nil⟩
  | succ m ih =>
      intro fuel k places pts places2 k2 h
      rw [place_many_succ] at h
      split at h
      · exact absurd h (by simp)
      · rename_i p k1 hsf
        split at h
        · exact absurd h (by simp)
        · rename_i pts1 pl3 k3 hpm
          have h3 := Option.some.inj h
          have h4 : p :: pts1 = pts := congrArg (fun x => x.1) h3
          have h5 : pl3 = places2 := congrArg (fun x => x.2.1) h3
          subst h4
          subst h5
          obtain ⟨hpl, hlen, hsep, hpw⟩ :=
            ih fuel k1 (places ++ [p]) pts1 pl3 k3 hpm
          have hp := sample_free_mem_dist s places fuel k p k1 hsf
          refine ⟨?_, ?_, ?_, ?_⟩
          · rw [hpl]
            simp
          · simp [hlen]
          · intro x hx q hq
            rcases List.mem_cons.mp hx with rfl | hx2
            · exact hp q hq
            · exact hsep x hx2 q (List.mem_append_left _ hq)
          · refine List.Pairwise.cons ?_ hpw
            intro b hb
            exact sep_flip (hsep b hb p (by simp))

/-- C3 amended: every frame the initializer returns has its ball
outside the exclusion area; blue robot 0 sits at distance exactly 0.09
from the ball (not 0.2, and its position is never inserted into the
spatial index); and the minimum separation 0.2 holds pairwise among the
entities that are inserted: the ball, blue robots 1 and 2 and the three
yellow robots. -/
theorem initial_frame_amended (pos : ℕ → Point) (ang : ℕ → ℝ) (fld : Field)
    (fuel : ℕ) (pf : PosFrame)
    (h : get_initial_positions_frame pos ang fld fuel = some pf) :
    ¬ in_gk_area fld pf.ball ∧
    distPts pf.ball (pf.blue 0).pos = 0.09 ∧
    List.Pairwise (fun a b => (0.2 : ℝ) ≤ distPts a b)
      [pf.ball, (pf.blue 1).pos, (pf.blue 2).pos,
       (pf.yellow 0).pos, (pf.yellow 1).pos, (pf.yellow 2).pos] := by
  unfold get_initial_positions_frame at h
  split at h
  · exact absurd h (by simp)
  rename_i bp k0 hball
  split at h
  · exact absurd h (by simp)
  rename_i bluePts places1 k1 hbl
  split at h
  · exact absurd h (by simp)
  rename_i yellowPts places2 k2 hyl
  · have hpf := Option.some.inj h
    subst hpf
    obtain ⟨hpl1, hlen1, hsep1, hpw1⟩ :=
      place_many_spec pos 2 fuel k0 [bp, bp] bluePts places1 k1 hbl
    obtain ⟨hpl2, hlen2, hsep2, hpw2⟩ :=
      place_many_spec pos 3 fuel k1 places1 yellowPts places2 k2 hyl
    obtain ⟨p1, p2, rfl⟩ := List.length_eq_two.mp hlen1
    obtain ⟨q1, q2, q3, rfl⟩ := List.length_eq_three.mp hlen2
    subst hpl1
    refine ⟨sample_ball_not_gk pos fld fuel 0 bp k0 hball, ?_, ?_⟩
    · show distPts bp
        (bp.1 + 0.09 * Real.cos (deg2rad (ang 0)),
         bp.2 + 0.09 * Real.sin (deg2rad (ang 0))) = 0.09
      apply distPts_eval _ _ 0.09 (by norm_num)
      have hcs := Real.cos_sq_add_sin_sq (deg2rad (ang 0))
      show (bp.1 - (bp.1 + 0.09 * Real.cos (deg2rad (ang 0)))) ^ 2 +
          (bp.2 - (bp.2 + 0.09 * Real.sin (deg2rad (ang 0)))) ^ 2 =
          (0.09 : ℝ) ^ 2
      linear_combination ((0.09 : ℝ) ^ 2) * hcs
    · show List.Pairwise (fun a b => (0.2 : ℝ) ≤ distPts a b)
        [bp, p1, p2, q1, q2, q3]
      have hb1 : (0.2 : ℝ) ≤ distPts bp p1 :=
        sep_flip (hsep1 p1 (by simp) bp (by simp))
      have hb2 : (0.2 : ℝ) ≤ distPts bp p2 :=
        sep_flip (hsep1 p2 (by simp) bp (by simp))
      have h12 : (0.2 : ℝ) ≤ distPts p1 p2 := List.rel_of_pairwise_cons hpw1 (by simp)
      have hyb : ∀ x ∈ [q1, q2, q3], (0.2 : ℝ) ≤ distPts bp x := by
        intro x hx
        exact sep_flip (hsep2 x hx bp (by simp))
      have hy1 : ∀ x ∈ [q1, q2, q3], (0.2 : ℝ) ≤ distPts p1 x := by
        intro x hx
        exact sep_flip (hsep2 x hx p1 (by simp))
      have hy2 : ∀ x ∈ [q1, q2, q3], (0.2 : ℝ) ≤ distPts p2 x := by
        intro x hx
        exact sep_flip (hsep2 x hx p2 (by simp))
      refine List.Pairwise.cons ?_ (List.Pairwise.cons ?_
        (List.Pairwise.cons ?_ hpw2))
      · intro b hb
        rcases List.mem_cons.mp hb with rfl | hb
        · exact hb1
        rcases List.mem_cons.mp hb with rfl | hb
        · exact hb2
        · exact hyb b hb
      · intro b hb
        rcases List.mem_cons.mp hb with rfl | hb
        · exact h12
        · exact hy1 b hb
      · intro b hb
        exact hy2 b hb

/-- One sequential placement step, given the accepted sample and the
result of placing the remaining robots against the grown index. -/
lemma place_many_cons (s : ℕ → Point) (n fuel k : ℕ) (places : List Point)
    (p : Point) (k1 : ℕ) (pts pl2 : List Point) (k2 : ℕ)
    (h1 : sample_free s places fuel k = some (p, k1))
    (h2 : place_many s n fuel k1 (places ++ [p]) = some (pts, pl2, k2)) :
    place_many s (n + 1) fuel k places = some (p :: pts, pl2, k2) := by
  have e1 : place_many s (n + 1) fuel k places =
      match place_many s n fuel k1 (places ++ [p]) with
      | none => none
      | some (pts, places2, k2) => some (p :: pts, places2, k2) := by
    rw [place_many_succ, h1]
  rw [e1, h2]

/-- The initializer output assembled from the results of its three
sampling stages. -/
lemma get_initial_eq (pos : ℕ → Point) (ang : ℕ → ℝ) (fld : Field) (fuel : ℕ)
    (bp : Point) (k0 : ℕ) (bluePts places1 : List Point) (k1 : ℕ)
    (yellowPts pl2 : List Point) (k2 : ℕ)
    (h1 : sample_ball pos fld fuel 0 = some (bp, k0))
    (h2 : place_many pos 2 fuel k0 [bp, bp] = some (bluePts, places1, k1))
    (h3 : place_many pos 3 fuel k1 places1 = some (yellowPts, pl2, k2)) :
    get_initial_positions_frame pos ang fld fuel =
      some (assemble_frame ang bp bluePts yellowPts) := by
  have e1 : get_initial_positions_frame pos ang fld fuel =
      match place_many pos 2 fuel k0 [bp, bp] with
      | none => none
      | some (bluePts, places1, k1) =>
        match place_many pos 3 fuel k1 places1 with
        | none => none
        | some (yellowPts, _, _) => some (assemble_frame ang bp bluePts yellowPts) := by
    unfold get_initial_positions_frame
    rw [h1]
  have e2 : (match place_many pos 2 fuel k0 [bp, bp] with
      | none => none
      | some (bluePts, places1, k1) =>
        match place_many pos 3 fuel k1 places1 with
        | none => none
        | some (yellowPts, _, _) => some (assemble_frame ang bp bluePts yellowPts)) =
      match place_many pos 3 fuel k1 places1 with
      | none => none
      | some (yellowPts, _, _) => some (assemble_frame ang bp bluePts yellowPts) := by
    rw [h2]
  rw [e1, e2, h3]

/-- Acceptance at the first draw of the placement loop with one unit of
fuel. -/
lemma sample_free_accept (s : ℕ → Point) (places : List Point) (k : ℕ)
    (hne : places ≠ [])
    (h : ∀ q ∈ places, (0.2 : ℝ) ≤ distPts (s k) q) :
    sample_free s places 1 k = some (s k, k + 1) := by
  have e : sample_free s places 1 k =
      if get_nearest_dist places (s k) < 0.2 then sample_free s places 0 (k + 1)
      else some (s k, k + 1) := rfl
  rw [e, if_neg (not_lt.mpr (le_get_nearest_dist places (s k) hne h))]

/-- The concrete position stream of the initializer counterexample. -/
noncomputable def c3pos : ℕ → Point := fun k =>
  if k = 0 then (0, 0)
  else if k = 1 then (-3, 2)
  else if k = 2 then (-3, -2)
  else if k = 3 then (2, 2)
  else if k = 4 then (2, -2)
  else (0, 2)

/-- The concrete angle stream of the initializer counterexample: every
bearing is 0 degrees. -/
noncomputable def c3ang : ℕ → ℝ := fun _ => 0

/-- The frame the initializer produces on the concrete streams. -/
noncomputable def c3frame : PosFrame :=
  assemble_frame c3ang (0, 0) [(-3, 2), (-3, -2)] [(2, 2), (2, -2), (0, 2)]

/-- Running the initializer on the concrete streams with one unit of
fuel per loop accepts every first draw and returns the concrete
frame. -/
lemma c3_run : get_initial_positions_frame c3pos c3ang stdField 1 = some c3frame := by
  have hball : sample_ball c3pos stdField 1 0 = some ((0, 0), 1) := by
    have e : sample_ball c3pos stdField 1 0 =
        if in_gk_area stdField (c3pos 0) then sample_ball c3pos stdField 0 1
        else some (c3pos 0, 1) := rfl
    have hgk : ¬ in_gk_area stdField (c3pos 0) := by
      intro hc
      have h1 : (c3pos 0).1 > stdField.length / 2 - stdField.penalty_length := hc.1
      norm_num [c3pos, stdField] at h1
    rw [e, if_neg hgk]
    rfl
  have hsf1 : sample_free c3pos [(0, 0), (0, 0)] 1 1 = some ((-3, 2), 2) :=
    sample_free_accept c3pos _ 1 (by simp) (by
      intro q hq
      simp only [List.mem_cons, List.not_mem_nil, or_false] at hq
      rcases hq with rfl | rfl <;>
        · apply sep_of_sq
          norm_num [c3pos])
  have hsf2 : sample_free c3pos [(0, 0), (0, 0), (-3, 2)] 1 2 =
      some ((-3, -2), 3) :=
    sample_free_accept c3pos _ 2 (by simp) (by
      intro q hq
      simp only [List.mem_cons, List.not_mem_nil, or_false] at hq
      rcases hq with rfl | rfl | rfl <;>
        · apply sep_of_sq
          norm_num [c3pos])
  have hsf3 : sample_free c3pos [(0, 0), (0, 0), (-3, 2), (-3, -2)] 1 3 =
      some ((2, 2), 4) :=
    sample_free_accept c3pos _ 3 (by simp) (by
      intro q hq
      simp only [List.mem_cons, List.not_mem_nil, or_false] at hq
      rcases hq with rfl | rfl | rfl | rfl <;>
        · apply sep_of_sq
          norm_num [c3pos])
  have hsf4 : sample_free c3pos [(0, 0), (0, 0), (-3, 2), (-3, -2), (2, 2)] 1 4 =
      some ((2, -2), 5) :=
    sample_free_accept c3pos _ 4 (by simp) (by
      intro q hq
      simp only [List.mem_cons, List.not_mem_nil, or_false] at hq
      rcases hq with rfl | rfl | rfl | rfl | rfl <;>
        · apply sep_of_sq
          norm_num [c3pos])
  have hsf5 : sample_free c3pos
      [(0, 0), (0, 0), (-3, 2), (-3, -2), (2, 2), (2, -2)] 1 5 =
      some ((0, 2), 6) :=
    sample_free_accept c3pos _ 5 (by simp) (by
      intro q hq
      simp only [List.mem_cons, List.not_mem_nil, or_false] at hq
      rcases hq with rfl | rfl | rfl | rfl | rfl | rfl <;>
        · apply sep_of_sq
          norm_num [c3pos])
  have hpm_b1 : place_many c3pos 1 1 2 [(0, 0), (0, 0), (-3, 2)] =
      some ([(-3, -2)], [(0, 0), (0, 0), (-3, 2), (-3, -2)], 3) :=
    place_many_cons c3pos 0 1 2 _ _ 3 _ _ 3 hsf2 (place_many_zero c3pos 1 3 _)
  have hpm_b : place_many c3pos 2 1 1 [(0, 0), (0, 0)] =
      some ([(-3, 2), (-3, -2)], [(0, 0), (0, 0), (-3, 2), (-3, -2)], 3) :=
    place_many_cons c3pos 1 1 1 _ _ 2 _ _ 3 hsf1 hpm_b1
  have hpm_y2 : place_many c3pos 1 1 5
      [(0, 0), (0, 0), (-3, 2), (-3, -2), (2, 2), (2, -2)] =
      some ([(0, 2)],
        [(0, 0), (0, 0), (-3, 2), (-3, -2), (2, 2), (2, -2), (0, 2)], 6) :=
    place_many_cons c3pos 0 1 5 _ _ 6 _ _ 6 hsf5 (place_many_zero c3pos 1 6 _)
  have hpm_y1 : place_many c3pos 2 1 4
      [(0, 0), (0, 0), (-3, 2), (-3, -2), (2, 2)] =
      some ([(2, -2), (0, 2)],
        [(0, 0), (0, 0), (-3, 2), (-3, -2), (2, 2), (2, -2), (0, 2)], 6) :=
    place_many_cons c3pos 1 1 4 _ _ 5 _ _ 6 hsf4 hpm_y2
  have hpm_y : place_many c3pos 3 1 3 [(0, 0), (0, 0), (-3, 2), (-3, -2)] =
      some ([(2, 2), (2, -2), (0, 2)],
        [(0, 0), (0, 0), (-3, 2), (-3, -2), (2, 2), (2, -2), (0, 2)], 6) :=
    place_many_cons c3pos 2 1 3 _ _ 4 _ _ 6 hsf3 hpm_y1
  exact get_initial_eq c3pos c3ang stdField 1 (0, 0) 1 _ _ 3 _ _ 6 hball hpm_b hpm_y

/-- Blue robot 0 of the concrete frame sits at distance exactly 0.09
from the ball. -/
lemma c3_dist : distPts c3frame.ball (c3frame.blue 0).pos = 0.09 := by
  show distPts (0, 0)
    ((0 : ℝ) + 0.09 * Real.cos (deg2rad (c3ang 0)),
     (0 : ℝ) + 0.09 * Real.sin (deg2rad (c3ang 0))) = 0.09
  have hd : deg2rad (c3ang 0) = 0 := by
    norm_num [deg2rad, c3ang]
  rw [hd, Real.cos_zero, Real.sin_zero]
  apply distPts_eval _ _ 0.09 (by norm_num)
  norm_num

/-- Counterexample to C3: on the concrete streams the initializer
returns a frame in which the ball and blue robot 0 lie at distance
0.09, so the claimed pairwise minimum separation of 0.2 among the ball
and all robots fails. -/
theorem initial_frame_separation_counterexample :
    get_initial_positions_frame c3pos c3ang stdField 1 = some c3frame ∧
    distPts c3frame.ball (c3frame.blue 0).pos = 0.09 ∧
    ¬ List.Pairwise (fun a b => (0.2 : ℝ) ≤ distPts a b)
      [c3frame.ball, (c3frame.blue 0).pos, (c3frame.blue 1).pos,
       (c3frame.blue 2).pos, (c3frame.yellow 0).pos, (c3frame.yellow 1).pos,
       (c3frame.yellow 2).pos] := by
  refine ⟨c3_run, c3_dist, ?_⟩
  intro hp
  have h1 : (0.2 : ℝ) ≤ distPts c3frame.ball (c3frame.blue 0).pos :=
    List.rel_of_pairwise_cons hp (by simp)
  rw [c3_dist] at h1
  norm_num at h1

/-- Witness for C3 amended: the concrete run satisfies the amended
postcondition, here instantiated on its exclusion-area clause. -/
theorem initial_frame_amended_witness :
    ¬ in_gk_area stdField c3frame.ball :=
  (initial_frame_amended c3pos c3ang stdField 1 c3frame c3_run).1

end SSLShoot
